import Mathlib

/-!
Verification development for the jokio/rpc schema-driven RPC binding layer.

The embedding models the current client (`client.ts`: `replacePathParams`,
`createClient` with `handleValidation`, `buildUrl`, `handleResponse`,
`makeRequest`) and the current server (`server.ts`: `createRouteHandler`,
`registerExpressRoutes`).  Strings are `List Char`; JavaScript runtime
values are the `Json` inductive (JSON values plus `undef` for
`undefined`); a thrown JS exception is the `.error` case of `Except`;
zod schemas are parse functions; the injected `fetch` transport is a
function from the assembled request to a response.  `JSON.stringify` at
the transport boundary and URL percent-encoding inside
`URLSearchParams` are host serialization details outside the modelled
core (the spec treats the transport wire format as out of scope), so a
recorded call carries the body value itself and query pairs are joined
as `k=v` with `&`.  `console.debug` / `console.error` logging has no
semantic effect and is not modelled.
-/

namespace JokioRpc

/-! ## JavaScript runtime values -/

/-- A JavaScript runtime value as used by the library: the JSON values
plus `undefined`.  Numbers are modelled as integers (the claims only
depend on `0` being falsy; float-specific behaviour is not exercised). -/
inductive Json where
  | undef
  | null
  | bool (b : Bool)
  | num (n : Int)
  | str (s : List Char)
  | arr (xs : List Json)
  | obj (fields : List (List Char × Json))

/-- JavaScript truthiness: `undefined`, `null`, `false`, `0` and `""`
are falsy; every other value (including empty arrays and objects) is
truthy. -/
def Json.truthy : Json → Bool
  | .undef => false
  | .null => false
  | .bool b => b
  | .num n => n != 0
  | .str s => !s.isEmpty
  | .arr _ => true
  | .obj _ => true

/-- Whether the value is `undefined` (the `body !== undefined` test). -/
def Json.isUndef : Json → Bool
  | .undef => true
  | _ => false

/-- Whether the value is `null` or `undefined` (the `??` test and the
values whose property access throws a TypeError). -/
def Json.isNullish : Json → Bool
  | .undef => true
  | .null => true
  | _ => false

/-- Association-list lookup by string key, first match wins (a JS
object property read on a plain-object model). -/
def lookupKey {α : Type} : List (List Char × α) → List Char → Option α
  | [], _ => none
  | (k, v) :: rest, key => if k = key then some v else lookupKey rest key

/-- Property read `j.k` on a JS value: defined fields of an object are
found, everything else reads as `undefined` (`none`).  Reads on
`null`/`undefined` are handled by the callers, which model the thrown
TypeError. -/
def jsField (j : Json) (k : List Char) : Option Json :=
  match j with
  | .obj fields => lookupKey fields k
  | _ => none

/-! ## Errors -/

/-- The structured failure a schema's `parse` raises (a ZodError):
a list of violation messages. -/
structure ValidationErr where
  issues : List (List Char)
deriving DecidableEq

/-- The failures the modelled code can raise.
`validationError` is a thrown ZodError; `missingParameterError` is the
`Error` thrown by `replacePathParams` (its message interpolates the
parameter name and the path, carried here structurally);
`httpError` is the `new Error(error.message)` thrown on a non-success
status — it carries only the message read from the parsed error body
(`none` when that body has no `message` field); `jsTypeError` is the
TypeError of a property access on `undefined`; `jsonParseError` is the
SyntaxError of `response.json()` on a non-JSON body; `userError` is an
arbitrary failure thrown by user-supplied code (context factory or
handler). -/
inductive RpcError where
  | validationError (e : ValidationErr)
  | missingParameterError (name : List Char) (path : List Char)
  | httpError (message : Option Json)
  | jsTypeError
  | jsonParseError
  | userError (tag : List Char)

/-! ## Path parameter algorithm (`replacePathParams` in client.ts)

The JS code scans the template with the regex `:([^\x2f]+)` (a colon
followed by a maximal nonempty run of non-slash characters), collects
the captured names into a `Set`, throws on the first name with no
entry in `params`, and otherwise replaces every match left to right
with `String(params[name])`. -/

/-- The names captured by the global regex scan, in match order, with
duplicates (the JS code inserts them into a `Set`, see
`paramNameSet`).  A `:` followed by `/` or end of input matches
nothing and scanning resumes at the next character; after a match,
scanning resumes after the captured name. -/
def extractParamNames : List Char → List (List Char)
  | [] => []
  | ':' :: rest =>
    let name := rest.takeWhile (· ≠ '/')
    if name.isEmpty then extractParamNames rest
    else name :: extractParamNames (rest.dropWhile (· ≠ '/'))
  | _ :: rest => extractParamNames rest
  termination_by l => l.length
  decreasing_by
    · simp
    · have := (List.dropWhile_sublist (l := rest) (p := (· ≠ '/'))).length_le
      simp only [List.length_cons]
      omega
    · simp

/-- Insertion into the JS `Set` model: a list without duplicates kept
in insertion order. -/
def setInsert (s : List (List Char)) (n : List Char) : List (List Char) :=
  if n ∈ s then s else s ++ [n]

/-- The `Set` of parameter names the JS code builds: first occurrences
in match order. -/
def paramNameSet (path : List Char) : List (List Char) :=
  (extractParamNames path).foldl setInsert []

/-- `String(params[name])` in the replacement callback: the value when
present, the string `"undefined"` otherwise (the JS coercion of an
absent property; unreachable after the presence check). -/
def paramValue (params : List (List Char × List Char)) (name : List Char) : List Char :=
  match lookupKey params name with
  | some v => v
  | none => "undefined".toList

/-- The single left-to-right replacement pass of
`path.replace(regex, (_, name) => String(params[name]))`: every match
of the scan is replaced by the value, all other characters are kept. -/
def substParams (params : List (List Char × List Char)) : List Char → List Char
  | [] => []
  | ':' :: rest =>
    let name := rest.takeWhile (· ≠ '/')
    if name.isEmpty then ':' :: substParams params rest
    else paramValue params name ++ substParams params (rest.dropWhile (· ≠ '/'))
  | c :: rest => c :: substParams params rest
  termination_by l => l.length
  decreasing_by
    · simp
    · have := (List.dropWhile_sublist (l := rest) (p := (· ≠ '/'))).length_le
      simp only [List.length_cons]
      omega
    · simp

/-- `replacePathParams(path, params)`: extract the name set, throw
`Missing required parameter: "name" for path "path"` on the first name
(in `Set` insertion order) with no entry in `params`, otherwise return
the replacement pass.  Values of type `string | number` are modelled
already stringified. -/
def replacePathParams (path : List Char) (params : List (List Char × List Char)) :
    Except RpcError (List Char) :=
  match (paramNameSet path).find? (fun n => (lookupKey params n).isNone) with
  | some n => .error (.missingParameterError n path)
  | none => .ok (substParams params path)

/-! ## Spec-side template reading (for the round-trip claim)

Modelled from the spec's words: a template parses into literal
characters and `:name` tokens (a name being the maximal run of
characters after `:` up to the next `/` or end of string), and
substitution replaces each token by the string form of its value,
inserted verbatim, keeping everything else. -/

/-- A piece of a parsed template: a literal character or a `:name`
parameter token. -/
inductive Chunk where
  | lit (c : Char)
  | param (name : List Char)

/-- Parse a template into chunks, following the spec's token syntax. -/
def parseTemplate : List Char → List Chunk
  | [] => []
  | ':' :: rest =>
    let name := rest.takeWhile (· ≠ '/')
    if name.isEmpty then .lit ':' :: parseTemplate rest
    else .param name :: parseTemplate (rest.dropWhile (· ≠ '/'))
  | c :: rest => .lit c :: parseTemplate rest
  termination_by l => l.length
  decreasing_by
    · simp
    · have := (List.dropWhile_sublist (l := rest) (p := (· ≠ '/'))).length_le
      simp only [List.length_cons]
      omega
    · simp

/-- Render one chunk: a literal stays, a token becomes the string form
of its value (verbatim). -/
def renderChunk (params : List (List Char × List Char)) : Chunk → List Char
  | .lit c => [c]
  | .param n => paramValue params n

/-- Render a parsed template: each `:name` token replaced in place by
its value, everything else kept. -/
def renderTemplate (cs : List Chunk) (params : List (List Char × List Char)) : List Char :=
  cs.flatMap (renderChunk params)

/-- The parameter names of a parsed template, in order. -/
def chunkNames (cs : List Chunk) : List (List Char) :=
  cs.filterMap (fun c => match c with | .param n => some n | .lit _ => none)

/-! ## Schemas and the route table (types.ts) -/

/-- A zod schema as the code uses it: `parse` returns the parsed
(possibly coerced) value or throws a ZodError. -/
structure Schema where
  parse : Json → Except ValidationErr Json

/-- A response schema: a schema together with its declared `type`
string, read by the client's `routeConfig.response.type === "void"`
check. -/
structure RespSchema where
  typeName : Option (List Char)
  parse : Json → Except ValidationErr Json

/-- The `=== "void"` comparison on the declared response type. -/
def RespSchema.isVoid (r : RespSchema) : Bool :=
  r.typeName = some "void".toList

/-- A route descriptor: optional body schema, optional query-parameter
schema, required response schema. -/
structure RouteConfig where
  body : Option Schema
  queryParams : Option Schema
  response : RespSchema

/-- The six HTTP methods of the route table, including the custom
QUERY method. -/
inductive Method where
  | GET | QUERY | POST | PUT | PATCH | DELETE
deriving DecidableEq

/-- The HTTP method string sent on the wire / compared with
`req.method`. -/
def methodName : Method → List Char
  | .GET => "GET".toList
  | .QUERY => "QUERY".toList
  | .POST => "POST".toList
  | .PUT => "PUT".toList
  | .PATCH => "PATCH".toList
  | .DELETE => "DELETE".toList

/-- A `Partial<RouterConfig>` route table: per method, an optional
mapping from path template to route descriptor (an absent method key
reads as `undefined`). -/
def Routes : Type :=
  Method → Option (List (List Char × RouteConfig))

/-! ## Client dispatcher (client.ts `createClient`) -/

/-- The per-call options bag: optional `params` for path substitution
and optional `queryParams` (the spec fixes query parameters as
flattened string key/value pairs; the `debug` flag only toggles
logging and is not modelled). -/
structure CallOptions where
  params : Option (List (List Char × List Char))
  queryParams : Option (List (List Char × List Char))

/-- The client configuration after `createClient` applies its
defaults: base URL, resolved headers (the result of `getHeaders`,
which the dispatcher awaits before the call), and the validation
toggle (`validate = true` when the option is omitted). -/
structure ClientConfig where
  baseUrl : List Char
  headers : List (List Char × List Char)
  validate : Bool

/-- One invocation of the injected transport: the assembled URL,
method string, headers, and the request body when one was supplied
(`fetchOptions.body` is only set when `body !== undefined`;
`JSON.stringify` is the host serialization, so the value itself is
recorded). -/
structure FetchCall where
  url : List Char
  method : List Char
  headers : List (List Char × List Char)
  body : Option Json

/-- A transport response: the HTTP status and the result of parsing
the body as JSON (`none` when the body is not valid JSON, in which
case `response.json()` throws). -/
structure Response where
  status : Nat
  jsonBody : Option Json

/-- `response.ok`: status in the 200–299 range. -/
def responseOk (r : Response) : Bool :=
  200 ≤ r.status && r.status < 300

/-- Which body-consuming method the client called on the response:
`response.text()` (draining) or `response.json()` (parsing). -/
inductive BodyRead where
  | text
  | json
deriving DecidableEq

/-- `new URLSearchParams(queryParams).toString()`: the pairs joined as
`k=v` with `&` (percent-encoding is host behaviour outside the modelled
core). -/
def serializeQuery (q : List (List Char × List Char)) : List Char :=
  List.intercalate "&".toList (q.map (fun kv => kv.1 ++ '=' :: kv.2))

/-- A flat query-parameter bag as the JS object handed to a schema's
`parse`. -/
def queryJson (q : List (List Char × List Char)) : Json :=
  .obj (q.map (fun kv => (kv.1, .str kv.2)))

/-- `buildUrl`: serialize `options?.queryParams` into a query string,
substitute path parameters when the template contains a `:`
(`replacePathParams` may throw), and concatenate
`baseUrl ++ finalPath ++ queryString`. -/
def buildUrl (baseUrl : List Char) (path : List Char) (opts : CallOptions) :
    Except RpcError (List Char) :=
  let queryString : List Char :=
    match opts.queryParams with
    | some q => '?' :: serializeQuery q
    | none => []
  match (if path.contains ':' then replacePathParams path (opts.params.getD []) else .ok path) with
  | .error e => .error e
  | .ok finalPath => .ok (baseUrl ++ finalPath ++ queryString)

/-- `handleValidation`: a no-op when the toggle is off; otherwise look
the route up (`(routes[method])[path]` throws a TypeError when the
method table is absent), validate the body when it is truthy and a
body schema is declared (the JS condition is `body && routeConfig?.body`,
a truthiness test), then validate the query parameters when supplied
and a query schema is declared.  A thrown ZodError aborts the
dispatch. -/
def handleValidation (validate : Bool) (routes : Routes) (method : Method)
    (path : List Char) (body : Json) (queryParams : Option (List (List Char × List Char))) :
    Except RpcError Unit :=
  if !validate then .ok ()
  else
    match routes method with
    | none => .error .jsTypeError
    | some tbl =>
      let rc := lookupKey tbl path
      let bodyCheck : Except RpcError Unit :=
        match (if body.truthy then rc.bind (·.body) else none) with
        | none => .ok ()
        | some s =>
          match s.parse body with
          | .ok _ => .ok ()
          | .error e => .error (.validationError e)
      match bodyCheck with
      | .error e => .error e
      | .ok _ =>
        match queryParams, rc.bind (·.queryParams) with
        | some q, some s =>
          match s.parse (queryJson q) with
          | .ok _ => .ok ()
          | .error e => .error (.validationError e)
        | _, _ => .ok ()

/-- `handleResponse`: on a non-success status, parse the body as an
error payload and throw `new Error(error.message)` (reading `.message`
on a nullish payload throws a TypeError); on success, look the route up
(`routeConfig.response.type` on an absent descriptor throws a
TypeError), drain the body and return `undefined` for a `"void"`
response type, otherwise parse the body as JSON and, when the toggle
is on, validate it against the response schema.  Also records which
body-consuming reads happened. -/
def handleResponse (validate : Bool) (routes : Routes) (method : Method)
    (path : List Char) (resp : Response) :
    Except RpcError Json × List BodyRead :=
  if !responseOk resp then
    match resp.jsonBody with
    | none => (.error .jsonParseError, [.json])
    | some err =>
      if err.isNullish then (.error .jsTypeError, [.json])
      else (.error (.httpError (jsField err "message".toList)), [.json])
  else
    match routes method with
    | none => (.error .jsTypeError, [])
    | some tbl =>
      match lookupKey tbl path with
      | none => (.error .jsTypeError, [])
      | some rc =>
        if rc.response.isVoid then (.ok .undef, [.text])
        else
          match resp.jsonBody with
          | none => (.error .jsonParseError, [.json])
          | some json =>
            if validate then
              match rc.response.parse json with
              | .ok v => (.ok v, [.json])
              | .error e => (.error (.validationError e), [.json])
            else (.ok json, [.json])

/-- The headers the dispatcher assembles: a fixed
`Content-Type: application/json` merged with the resolved
`getHeaders()` result (later spread entries shadow earlier keys). -/
def mergeHeaders (cfg : ClientConfig) : List (List Char × List Char) :=
  ("Content-Type".toList, "application/json".toList) :: cfg.headers

/-- The transport invocation `makeRequest` assembles for a resolved
URL: method string, merged headers, and the body when supplied. -/
def clientCall (cfg : ClientConfig) (method : Method) (url : List Char) (body : Json) :
    FetchCall :=
  ⟨url, methodName method, mergeHeaders cfg, if body.isUndef then none else some body⟩

/-- The observable outcome of one client dispatch: the returned or
thrown result, the transport invocations made, and the
body-consuming reads performed on the response. -/
structure DispatchResult where
  result : Except RpcError Json
  calls : List FetchCall
  reads : List BodyRead

/-- `makeRequest`: validate, build the URL, invoke the injected
transport once, and hand the response to `handleResponse`.  A failure
in validation or URL building aborts before any transport call. -/
def makeRequest (cfg : ClientConfig) (routes : Routes) (transport : FetchCall → Response)
    (method : Method) (path : List Char) (body : Json) (opts : CallOptions) :
    DispatchResult :=
  match handleValidation cfg.validate routes method path body opts.queryParams with
  | .error e => ⟨.error e, [], []⟩
  | .ok _ =>
    match buildUrl cfg.baseUrl path opts with
    | .error e => ⟨.error e, [], []⟩
    | .ok url =>
      let call := clientCall cfg method url body
      let resp := transport call
      let hr := handleResponse cfg.validate routes method path resp
      ⟨hr.1, [call], hr.2⟩

/-! ## Server dispatcher (server.ts `createRouteHandler`,
`registerExpressRoutes`) -/

/-- The inbound request as the Express handler sees it: the actual
HTTP method string, the router-captured path parameters, the raw body
(`undef` when absent) and the parsed query object. -/
structure ServerReq where
  method : List Char
  params : List (List Char × List Char)
  body : Json
  query : Json

/-- The validated data bundle handed to a user handler: the captured
path parameters always, the parsed body only when the route declares a
body schema, the parsed query only when it declares a query schema. -/
structure HandlerData where
  params : List (List Char × List Char)
  body : Option Json
  queryParams : Option Json

/-- What the dispatcher does with the response sink: send a JSON body,
answer directly with a status (the 405 guard), or forward an error to
`next`. -/
inductive ServerOutcome where
  | jsonSent (v : Json)
  | statusSent (code : Nat) (text : List Char)
  | nextCalled (e : RpcError)

/-- The handlers object passed to `registerExpressRoutes`: per method
an optional mapping from route to user handler (a handler may suspend
and may throw), the optional context factory, and the optional
`validation` flag.  The `schemaFilePath` introspection endpoint serves
a file verbatim (host I/O) and is not modelled. -/
structure ServerHandlers where
  handlers : Method → Option (List (List Char × (HandlerData → Json → Except RpcError Json)))
  ctxFactory : Option (ServerReq → Except RpcError Json)
  validation : Option Bool

/-- `(handlers.ctx?.(req) ?? {})`: an empty object when no factory is
configured or the factory returns a nullish value; the factory's own
failure propagates. -/
def serverCtx (sh : ServerHandlers) (req : ServerReq) : Except RpcError Json :=
  match sh.ctxFactory with
  | none => .ok (.obj [])
  | some f =>
    match f req with
    | .error e => .error e
    | .ok c => .ok (if c.isNullish then .obj [] else c)

/-- The `body` field of the data bundle:
`...(routeConfig?.body && { body: routeConfig.body.parse(req.body) })` —
present exactly when the descriptor declares a body schema, holding the
parse result; a ZodError propagates. -/
def serverBodyField (rc : Option RouteConfig) (req : ServerReq) :
    Except RpcError (Option Json) :=
  match rc.bind (·.body) with
  | none => .ok none
  | some s =>
    match s.parse req.body with
    | .ok v => .ok (some v)
    | .error e => .error (.validationError e)

/-- The `queryParams` field of the data bundle, analogous to
`serverBodyField` with the declared query schema applied to
`req.query`. -/
def serverQueryField (rc : Option RouteConfig) (req : ServerReq) :
    Except RpcError (Option Json) :=
  match rc.bind (·.queryParams) with
  | none => .ok none
  | some s =>
    match s.parse req.query with
    | .ok v => .ok (some v)
    | .error e => .error (.validationError e)

/-- `await handlers[method][route]?.(data, ctx)`: a TypeError when the
method key is absent from the handlers object, `undefined` when the
route has no handler (the optional call), otherwise the handler's
result or thrown failure. -/
def serverResult (sh : ServerHandlers) (method : Method) (route : List Char)
    (data : HandlerData) (ctx : Json) : Except RpcError Json :=
  match sh.handlers method with
  | none => .error .jsTypeError
  | some tbl =>
    match lookupKey tbl route with
    | none => .ok .undef
    | some f => f data ctx

/-- `createRouteHandler`: the per-route Express handler.  Reject with
405 when a QUERY route is hit by a different inbound method; compute
the context; look the descriptor up; build the validated data; invoke
the user handler; send the (optionally response-validated) result as
JSON.  The whole body runs in a try/catch whose catch forwards the
failure to `next(err)`. -/
def createRouteHandler (method : Method) (routes : Routes) (sh : ServerHandlers)
    (route : List Char) (validation : Bool) (req : ServerReq) : ServerOutcome :=
  if method = Method.QUERY ∧ req.method ≠ "QUERY".toList then
    .statusSent 405 "Method Not Allowed".toList
  else
    match serverCtx sh req with
    | .error e => .nextCalled e
    | .ok ctx =>
      match routes method with
      | none => .nextCalled .jsTypeError
      | some tbl =>
        let rc := lookupKey tbl route
        match serverBodyField rc req with
        | .error e => .nextCalled e
        | .ok b =>
          match serverQueryField rc req with
          | .error e => .nextCalled e
          | .ok q =>
            match serverResult sh method route ⟨req.params, b, q⟩ ctx with
            | .error e => .nextCalled e
            | .ok result =>
              if validation then
                match rc with
                | none => .nextCalled .jsTypeError
                | some rcfg =>
                  match rcfg.response.parse result with
                  | .ok v => .jsonSent v
                  | .error e => .nextCalled (.validationError e)
              else .jsonSent result

/-- The Express router verb each method registers under (`QUERY` maps
onto the catch-all `all`, which is why the 405 guard exists). -/
def expressMethodName : Method → List Char
  | .GET => "get".toList
  | .POST => "post".toList
  | .PUT => "put".toList
  | .PATCH => "patch".toList
  | .DELETE => "delete".toList
  | .QUERY => "all".toList

/-- The iteration order of `expressMethodMap` in
`registerExpressRoutes`. -/
def methodList : List Method :=
  [.GET, .POST, .PUT, .PATCH, .DELETE, .QUERY]

/-- The handler `registerExpressRoutes` wires for one route: the
destructuring `const { schemaFilePath, validation = true } = handlers`
resolves the validation flag to `true` when it was not supplied. -/
def registeredHandler (routes : Routes) (sh : ServerHandlers) (method : Method)
    (route : List Char) : ServerReq → ServerOutcome :=
  createRouteHandler method routes sh route (sh.validation.getD true)

/-- `registerExpressRoutes`: for each method present in the route
table (absent methods are skipped), register every route under the
mapped Express verb with the wired handler. -/
def registerExpressRoutes (routes : Routes) (sh : ServerHandlers) :
    List (List Char × List Char × (ServerReq → ServerOutcome)) :=
  methodList.flatMap (fun m =>
    match routes m with
    | none => []
    | some tbl =>
      tbl.map (fun kv => (expressMethodName m, kv.1, registeredHandler routes sh m kv.1)))

/-! ## Lemmas about the path parameter algorithm -/

theorem mem_foldl_setInsert (l : List (List Char)) (acc : List (List Char)) (n : List Char) :
    n ∈ l.foldl setInsert acc ↔ n ∈ acc ∨ n ∈ l := by
  induction l generalizing acc with
  | nil => simp
  | cons x xs ih =>
    simp only [List.foldl_cons, ih, setInsert]
    by_cases hx : x ∈ acc
    · simp only [if_pos hx, List.mem_cons]
      constructor
      · rintro (h | h)
        · exact Or.inl h
        · exact Or.inr (Or.inr h)
      · rintro (h | rfl | h)
        · exact Or.inl h
        · exact Or.inl hx
        · exact Or.inr h
    · simp only [if_neg hx, List.mem_append, List.mem_singleton, List.mem_cons]
      tauto

theorem mem_paramNameSet (path : List Char) (n : List Char) :
    n ∈ paramNameSet path ↔ n ∈ extractParamNames path := by
  simp [paramNameSet, mem_foldl_setInsert]

theorem lookupKey_mem {α : Type} {l : List (List Char × α)} {k : List Char} {v : α}
    (h : lookupKey l k = some v) : (k, v) ∈ l := by
  induction l with
  | nil => simp [lookupKey] at h
  | cons kv rest ih =>
    obtain ⟨k', v'⟩ := kv
    simp only [lookupKey] at h
    by_cases hk : k' = k
    · subst hk
      rw [if_pos rfl] at h
      obtain rfl := Option.some.inj h
      exact List.mem_cons_self _ _
    · rw [if_neg hk] at h
      exact List.mem_cons_of_mem _ (ih h)

theorem extractParamNames_eq_chunkNames (p : List Char) :
    extractParamNames p = chunkNames (parseTemplate p) := by
  induction p using parseTemplate.induct with
  | case1 => simp [extractParamNames, parseTemplate, chunkNames]
  | case2 rest name hname ih =>
    rw [extractParamNames.eq_2, parseTemplate.eq_2, if_pos hname, if_pos hname, ih]
    simp [chunkNames]
  | case3 rest name hname ih =>
    rw [extractParamNames.eq_2, parseTemplate.eq_2, if_neg hname, if_neg hname, ih]
    simp [chunkNames]
  | case4 c rest hne ih =>
    rw [extractParamNames.eq_3 c rest hne, parseTemplate.eq_3 c rest hne, ih]
    simp [chunkNames]

theorem substParams_eq_renderTemplate (params : List (List Char × List Char)) (p : List Char) :
    substParams params p = renderTemplate (parseTemplate p) params := by
  induction p using parseTemplate.induct with
  | case1 => simp [substParams, parseTemplate, renderTemplate]
  | case2 rest name hname ih =>
    rw [substParams.eq_2, parseTemplate.eq_2, if_pos hname, if_pos hname, ih]
    simp [renderTemplate, renderChunk]
  | case3 rest name hname ih =>
    rw [substParams.eq_2, parseTemplate.eq_2, if_neg hname, if_neg hname, ih]
    simp [renderTemplate, renderChunk]
  | case4 c rest hne ih =>
    rw [substParams.eq_3 params c rest hne, parseTemplate.eq_3 c rest hne, ih]
    simp [renderTemplate, renderChunk]

theorem takeWhile_slash_nil_shape {l : List Char} (h : l.takeWhile (· ≠ '/') = []) :
    l = [] ∨ ∃ t, l = '/' :: t := by
  cases l with
  | nil => exact Or.inl rfl
  | cons c t =>
    by_cases hc : c = '/'
    · exact Or.inr ⟨t, by rw [hc]⟩
    · rw [List.takeWhile_cons_of_pos (by simpa using hc)] at h
      exact absurd h (List.cons_ne_nil _ _)

theorem takeWhile_dropWhile_slash (l : List Char) :
    ((l.dropWhile (· ≠ '/')).takeWhile (· ≠ '/')) = [] := by
  induction l with
  | nil => simp
  | cons c t ih =>
    by_cases hc : c = '/'
    · rw [List.dropWhile_cons_of_neg (by simpa using hc)]
      rw [List.takeWhile_cons_of_neg (by simpa using hc)]
    · rw [List.dropWhile_cons_of_pos (by simpa using hc)]
      exact ih

theorem extractParamNames_no_colon {l : List Char} (h : ∀ c ∈ l, c ≠ ':') :
    extractParamNames l = [] := by
  induction l with
  | nil => rw [extractParamNames.eq_1]
  | cons c t ih =>
    have hc : c = ':' → False := fun hcc => h c (List.mem_cons_self _ _) hcc
    rw [extractParamNames.eq_3 c t hc]
    exact ih (fun x hx => h x (List.mem_cons_of_mem _ hx))

theorem extractParamNames_append_nil {a b : List Char}
    (ha : extractParamNames a = []) (hb0 : b.takeWhile (· ≠ '/') = [])
    (hb : extractParamNames b = []) : extractParamNames (a ++ b) = [] := by
  induction a using extractParamNames.induct with
  | case1 => simpa using hb
  | case2 rest name hname ih =>
    rw [extractParamNames.eq_2, if_pos hname] at ha
    have hrest : rest.takeWhile (· ≠ '/') = [] := List.isEmpty_iff.mp hname
    have htw : (rest ++ b).takeWhile (· ≠ '/') = [] := by
      rcases takeWhile_slash_nil_shape hrest with rfl | ⟨t, rfl⟩
      · simpa using hb0
      · rw [List.cons_append, List.takeWhile_cons_of_neg (by simp)]
    rw [List.cons_append, extractParamNames.eq_2, if_pos (List.isEmpty_iff.mpr htw)]
    exact ih ha
  | case3 rest name hname ih =>
    rw [extractParamNames.eq_2, if_neg hname] at ha
    exact absurd ha (List.cons_ne_nil _ _)
  | case4 c rest hne ih =>
    rw [extractParamNames.eq_3 c rest hne] at ha
    rw [List.cons_append, extractParamNames.eq_3 c (rest ++ b) hne]
    exact ih ha

theorem substParams_takeWhile_nil {params : List (List Char × List Char)} {p : List Char}
    (h : p.takeWhile (· ≠ '/') = []) :
    (substParams params p).takeWhile (· ≠ '/') = [] := by
  rcases takeWhile_slash_nil_shape h with rfl | ⟨t, rfl⟩
  · rw [substParams.eq_1]
    simp
  · rw [substParams.eq_3 params '/' t (by decide)]
    rw [List.takeWhile_cons_of_neg (by simp)]

theorem extractParamNames_paramValue {params : List (List Char × List Char)}
    (hvals : ∀ kv ∈ params, extractParamNames kv.2 = []) (n : List Char) :
    extractParamNames (paramValue params n) = [] := by
  unfold paramValue
  cases he : lookupKey params n with
  | some v => exact hvals (n, v) (lookupKey_mem he)
  | none => exact extractParamNames_no_colon (by decide)

theorem substParams_no_leftover {params : List (List Char × List Char)}
    (hvals : ∀ kv ∈ params, extractParamNames kv.2 = []) (p : List Char) :
    extractParamNames (substParams params p) = [] := by
  induction p using substParams.induct params with
  | case1 => rw [substParams.eq_1, extractParamNames.eq_1]
  | case2 rest name hname ih =>
    rw [substParams.eq_2, if_pos hname]
    have htw : (substParams params rest).takeWhile (· ≠ '/') = [] :=
      substParams_takeWhile_nil (List.isEmpty_iff.mp hname)
    rw [extractParamNames.eq_2, if_pos (List.isEmpty_iff.mpr htw)]
    exact ih
  | case3 rest name hname ih =>
    rw [substParams.eq_2, if_neg hname]
    exact extractParamNames_append_nil (extractParamNames_paramValue hvals _)
      (substParams_takeWhile_nil (takeWhile_dropWhile_slash rest)) ih
  | case4 c rest hne ih =>
    rw [substParams.eq_3 params c rest hne, extractParamNames.eq_3 c _ hne]
    exact ih

theorem find?_agree {α : Type} {p q : α → Bool} {l : List α}
    (h : ∀ x ∈ l, p x = q x) : l.find? p = l.find? q := by
  induction l with
  | nil => rfl
  | cons x xs ih =>
    rw [List.find?_cons, List.find?_cons, h x (List.mem_cons_self _ _)]
    cases hq : q x with
    | true => rfl
    | false => exact ih (fun y hy => h y (List.mem_cons_of_mem _ hy))

theorem renderTemplate_agree {p₁ p₂ : List (List Char × List Char)} {cs : List Chunk}
    (h : ∀ n ∈ chunkNames cs, lookupKey p₁ n = lookupKey p₂ n) :
    renderTemplate cs p₁ = renderTemplate cs p₂ := by
  induction cs with
  | nil => rfl
  | cons c rest ih =>
    have hrest : ∀ n ∈ chunkNames rest, lookupKey p₁ n = lookupKey p₂ n := by
      intro n hn
      apply h
      cases c with
      | lit ch => simpa [chunkNames] using hn
      | param m =>
        simp only [chunkNames, List.filterMap_cons] at hn ⊢
        exact List.mem_cons_of_mem _ hn
    have ih' := ih hrest
    simp only [renderTemplate] at ih' ⊢
    simp only [List.flatMap_cons, ih']
    cases c with
    | lit ch => rfl
    | param m =>
      have hm : lookupKey p₁ m = lookupKey p₂ m := by
        apply h
        simp [chunkNames]
      simp [renderChunk, paramValue, hm]

/-! ## Claim theorems: path parameter algorithm -/

/-- Claim C2: for every path template whose extracted parameter-name
set is non-empty and every values mapping missing at least one of
those names, `replacePathParams` fails with a `MissingParameterError`
naming exactly one missing parameter and the offending template, and
performs no partial substitution (no substituted string is ever
produced). -/
theorem replacePathParams_missing_param (path : List Char)
    (params : List (List Char × List Char))
    (h : ∃ n ∈ extractParamNames path, lookupKey params n = none) :
    ∃ n, n ∈ extractParamNames path ∧ lookupKey params n = none ∧
      replacePathParams path params = .error (.missingParameterError n path) ∧
      ∀ s, replacePathParams path params ≠ .ok s := by
  obtain ⟨m, hm, hmnone⟩ := h
  have hsome : ((paramNameSet path).find? (fun n => (lookupKey params n).isNone)).isSome := by
    rw [List.find?_isSome]
    exact ⟨m, (mem_paramNameSet path m).mpr hm, by simp [hmnone]⟩
  obtain ⟨n, hn⟩ := Option.isSome_iff_exists.mp hsome
  have hin : n ∈ extractParamNames path :=
    (mem_paramNameSet path n).mp (List.mem_of_find?_eq_some hn)
  have hp := List.find?_some hn
  have hnone : lookupKey params n = none := Option.isNone_iff_eq_none.mp hp
  have heq : replacePathParams path params = .error (.missingParameterError n path) := by
    simp only [replacePathParams, hn]
  exact ⟨n, hin, hnone, heq, fun s hs => by rw [heq] at hs; cases hs⟩

/-- Claim C2 witness at the spec's Scenario 4: the template
`/user/:id/post/:postId` with only `id` supplied fails naming
`postId`. -/
theorem replacePathParams_missing_param_witness :
    (∃ n ∈ extractParamNames "/user/:id/post/:postId".toList,
      lookupKey [("id".toList, "1".toList)] n = none) ∧
    (∃ n, n ∈ extractParamNames "/user/:id/post/:postId".toList ∧
      lookupKey [("id".toList, "1".toList)] n = none ∧
      replacePathParams "/user/:id/post/:postId".toList [("id".toList, "1".toList)] =
        .error (.missingParameterError n "/user/:id/post/:postId".toList) ∧
      ∀ s, replacePathParams "/user/:id/post/:postId".toList [("id".toList, "1".toList)] ≠
        .ok s) := by
  have hyp : ∃ n ∈ extractParamNames "/user/:id/post/:postId".toList,
      lookupKey [("id".toList, "1".toList)] n = none := by
    refine ⟨"postId".toList, ?_, ?_⟩
    · simp [extractParamNames]
    · simp [lookupKey]
  exact ⟨hyp, replacePathParams_missing_param _ _ hyp⟩

/-- Claim C3 (amended): for every template and values mapping covering
all its parameter names, `replacePathParams` succeeds and returns the
single left-to-right replacement pass — each `:name` token replaced in
place by the string form of its value inserted verbatim, formalised as
the rendering of the parsed template — and the result contains no
remaining `:`-prefixed tokens provided no supplied value itself
contains one (a `:` followed by a non-`/` character). -/
theorem replacePathParams_round_trip (path : List Char)
    (params : List (List Char × List Char))
    (hcov : ∀ n ∈ extractParamNames path, (lookupKey params n).isSome) :
    replacePathParams path params = .ok (renderTemplate (parseTemplate path) params) ∧
    ((∀ kv ∈ params, extractParamNames kv.2 = []) →
      extractParamNames (renderTemplate (parseTemplate path) params) = []) := by
  have hfind : (paramNameSet path).find? (fun n => (lookupKey params n).isNone) = none := by
    rw [List.find?_eq_none]
    intro x hx
    obtain ⟨v, hv⟩ := Option.isSome_iff_exists.mp (hcov x ((mem_paramNameSet path x).mp hx))
    simp [hv]
  constructor
  · simp only [replacePathParams, hfind, substParams_eq_renderTemplate]
  · intro hvals
    rw [← substParams_eq_renderTemplate]
    exact substParams_no_leftover hvals path

/-- Claim C3 counterexample to the un-amended statement: with template
`/:x` and the covering mapping `x ↦ ":y"`, substitution succeeds and
inserts the value verbatim, but the result `/:y` still contains the
`:`-prefixed token `y`. -/
theorem replacePathParams_round_trip_counterexample :
    replacePathParams "/:x".toList [("x".toList, ":y".toList)] = .ok "/:y".toList ∧
    extractParamNames "/:y".toList = ["y".toList] := by
  constructor
  · simp [replacePathParams, paramNameSet, extractParamNames, setInsert, lookupKey,
      substParams, paramValue]
  · simp [extractParamNames]

/-- Claim C3 witness at the spec's Scenario 1 path: the covered
template `/user/:id` renders to `/user/42`. -/
theorem replacePathParams_round_trip_witness :
    (∀ n ∈ extractParamNames "/user/:id".toList,
      (lookupKey [("id".toList, "42".toList)] n).isSome) ∧
    replacePathParams "/user/:id".toList [("id".toList, "42".toList)] =
      .ok (renderTemplate (parseTemplate "/user/:id".toList) [("id".toList, "42".toList)]) ∧
    replacePathParams "/user/:id".toList [("id".toList, "42".toList)] =
      .ok "/user/42".toList := by
  have hcov : ∀ n ∈ extractParamNames "/user/:id".toList,
      (lookupKey [("id".toList, "42".toList)] n).isSome := by
    simp [extractParamNames, lookupKey]
  refine ⟨hcov, (replacePathParams_round_trip _ _ hcov).1, ?_⟩
  simp [replacePathParams, paramNameSet, extractParamNames, setInsert, lookupKey,
    substParams, paramValue]

/-- Claim C10: for every path template and any two values mappings that
agree on every parameter name extracted from the template,
`replacePathParams` produces the same result — entries whose keys are
not parameter names of the template have no effect and cannot cause
failure. -/
theorem replacePathParams_noninterference (path : List Char)
    (p₁ p₂ : List (List Char × List Char))
    (h : ∀ n ∈ extractParamNames path, lookupKey p₁ n = lookupKey p₂ n) :
    replacePathParams path p₁ = replacePathParams path p₂ := by
  have hfind : (paramNameSet path).find? (fun n => (lookupKey p₁ n).isNone) =
      (paramNameSet path).find? (fun n => (lookupKey p₂ n).isNone) := by
    apply find?_agree
    intro x hx
    rw [h x ((mem_paramNameSet path x).mp hx)]
  simp only [replacePathParams, hfind]
  cases hc : (paramNameSet path).find? (fun n => (lookupKey p₂ n).isNone) with
  | some n => rfl
  | none =>
    simp only [Except.ok.injEq]
    rw [substParams_eq_renderTemplate, substParams_eq_renderTemplate]
    apply renderTemplate_agree
    intro n hn
    exact h n (by rw [extractParamNames_eq_chunkNames]; exact hn)

/-- Claim C10 witness: adding an unrelated `other` entry to the values
mapping leaves the substitution of `/user/:id` unchanged. -/
theorem replacePathParams_noninterference_witness :
    (∀ n ∈ extractParamNames "/user/:id".toList,
      lookupKey [("id".toList, "7".toList)] n =
        lookupKey [("id".toList, "7".toList), ("other".toList, "9".toList)] n) ∧
    replacePathParams "/user/:id".toList [("id".toList, "7".toList)] =
      replacePathParams "/user/:id".toList
        [("id".toList, "7".toList), ("other".toList, "9".toList)] := by
  have hyp : ∀ n ∈ extractParamNames "/user/:id".toList,
      lookupKey [("id".toList, "7".toList)] n =
        lookupKey [("id".toList, "7".toList), ("other".toList, "9".toList)] n := by
    simp [extractParamNames, lookupKey]
  exact ⟨hyp, replacePathParams_noninterference _ _ _ hyp⟩

/-! ## Lemmas about the client dispatcher -/

theorem Json.truthy_not_undef {b : Json} (h : b.truthy = true) : b.isUndef = false := by
  cases b <;> simp_all [Json.truthy, Json.isUndef]

/-- With the validation toggle off, `handleValidation` is a no-op. -/
theorem handleValidation_off (routes : Routes) (method : Method) (path : List Char)
    (b : Json) (qp : Option (List (List Char × List Char))) :
    handleValidation false routes method path b qp = .ok () := by
  simp [handleValidation]

/-- With the toggle off, `handleResponse` never raises a
`ValidationError` (the response-schema parse is never invoked). -/
theorem handleResponse_off_no_validationError (routes : Routes) (method : Method)
    (path : List Char) (resp : Response) (ve : ValidationErr) :
    (handleResponse false routes method path resp).1 ≠ .error (.validationError ve) := by
  rw [handleResponse]
  repeat' split
  all_goals simp_all

/-- When the path key is absent from a present method table,
`handleValidation` finds no schema to apply and succeeds for either
toggle value. -/
theorem handleValidation_unknown_route {routes : Routes} {method : Method} {tbl}
    (v : Bool) (path : List Char) (b : Json) (qp : Option (List (List Char × List Char)))
    (htbl : routes method = some tbl) (hmiss : lookupKey tbl path = none) :
    handleValidation v routes method path b qp = .ok () := by
  cases v
  · simp [handleValidation]
  · simp only [handleValidation, Bool.not_true, Bool.false_eq_true, if_false, htbl, hmiss,
      Option.bind_none, ite_self]
    cases qp <;> simp

/-! ## Claim theorems: client dispatcher -/

/-- Claim C1 (amended): for every route with a declared body schema
and every truthy body value violating that schema, with the validation
toggle on the dispatch raises the `ValidationError` and the injected
transport is never invoked; with the toggle off no validation error is
raised and the same body is sent unchanged to the transport.  (The JS
guard is `body && routeConfig?.body`, a truthiness test, so falsy
bodies — `0`, `""`, `false`, `null` — skip client-side body validation
even with the toggle on.) -/
theorem client_validation_gating (cfg : ClientConfig) (routes : Routes)
    (transport : FetchCall → Response) (method : Method) (path : List Char) (b : Json)
    (opts : CallOptions) (tbl : List (List Char × RouteConfig)) (rc : RouteConfig)
    (schema : Schema) (e : ValidationErr) (url : List Char)
    (htbl : routes method = some tbl)
    (hrc : lookupKey tbl path = some rc)
    (hschema : rc.body = some schema)
    (htruthy : b.truthy = true)
    (hviol : schema.parse b = .error e)
    (hurl : buildUrl cfg.baseUrl path opts = .ok url) :
    (cfg.validate = true →
      makeRequest cfg routes transport method path b opts =
        ⟨.error (.validationError e), [], []⟩) ∧
    (cfg.validate = false →
      (makeRequest cfg routes transport method path b opts).calls =
        [⟨url, methodName method, mergeHeaders cfg, some b⟩] ∧
      ∀ ve, (makeRequest cfg routes transport method path b opts).result ≠
        .error (.validationError ve)) := by
  constructor
  · intro hv
    have hval : handleValidation cfg.validate routes method path b opts.queryParams =
        .error (.validationError e) := by
      rw [hv]
      simp only [handleValidation, Bool.not_true, Bool.false_eq_true, if_false, htbl, hrc,
        htruthy, if_pos, Option.some_bind, hschema, hviol]
    simp only [makeRequest, hval]
  · intro hv
    have hval : handleValidation cfg.validate routes method path b opts.queryParams =
        .ok () := by
      rw [hv]
      exact handleValidation_off routes method path b opts.queryParams
    have hcall : clientCall cfg method url b =
        ⟨url, methodName method, mergeHeaders cfg, some b⟩ := by
      simp [clientCall, Json.truthy_not_undef htruthy]
    constructor
    · simp only [makeRequest, hval, hurl, hcall]
    · intro ve
      simp only [makeRequest, hval, hurl]
      rw [hv]
      exact handleResponse_off_no_validationError routes method path _ ve

/-! ## Concrete fixtures for client witnesses and counterexamples -/

/-- A schema accepting exactly string values. -/
def stringSchema : Schema :=
  ⟨fun j => match j with
    | .str s => .ok (.str s)
    | _ => .error ⟨["expected string".toList]⟩⟩

/-- An identity (accept-everything) response schema. -/
def idRespSchema : RespSchema := ⟨none, fun j => .ok j⟩

/-- A response schema declared with the `"void"` sentinel type. -/
def voidRespSchema : RespSchema := ⟨some "void".toList, fun j => .ok j⟩

/-- A route descriptor with a string body schema and identity response
schema. -/
def rcStrBody : RouteConfig := ⟨some stringSchema, none, idRespSchema⟩

/-- A route descriptor with a void response type. -/
def rcVoid : RouteConfig := ⟨none, none, voidRespSchema⟩

/-- A table with `POST /u` (string body), `GET /v` (void response) and
an empty `GET` portion is modelled per fixture below. -/
def routesFix : Routes := fun m =>
  match m with
  | .POST => some [("/u".toList, rcStrBody)]
  | .GET => some [("/v".toList, rcVoid)]
  | _ => none

/-- A client configuration with the validation toggle on. -/
def cfgOn : ClientConfig := ⟨"http://h".toList, [], true⟩

/-- A client configuration with the validation toggle off. -/
def cfgOff : ClientConfig := ⟨"http://h".toList, [], false⟩

/-- A transport stub answering 200 with the JSON string "ok". -/
def okTransport : FetchCall → Response := fun _ => ⟨200, some (.str "ok".toList)⟩

/-- A transport stub answering 404 with `{"message": "not found"}`. -/
def transport404 : FetchCall → Response :=
  fun _ => ⟨404, some (.obj [("message".toList, .str "not found".toList)])⟩

/-- A transport stub answering 500 with the same body as
`transport404`. -/
def transport500 : FetchCall → Response :=
  fun _ => ⟨500, some (.obj [("message".toList, .str "not found".toList)])⟩

/-- A transport stub answering 204 with a body that is not valid JSON
(`response.json()` on it would throw). -/
def transport204 : FetchCall → Response := fun _ => ⟨204, none⟩

/-- Claim C1 counterexample to the un-amended statement: the falsy
body `0` violates the declared string schema, yet with the validation
toggle on the dispatch raises nothing and invokes the transport once
(the `body && routeConfig?.body` truthiness guard skips validation for
falsy bodies). -/
theorem client_validation_gating_counterexample :
    stringSchema.parse (.num 0) = .error ⟨["expected string".toList]⟩ ∧
    makeRequest cfgOn routesFix okTransport .POST "/u".toList (.num 0) ⟨none, none⟩ =
      ⟨.ok (.str "ok".toList),
        [⟨"http://h/u".toList, "POST".toList, mergeHeaders cfgOn, some (.num 0)⟩],
        [.json]⟩ :=
  ⟨rfl, rfl⟩

/-- Claim C1 witness: the truthy body `5` violating the string schema
is rejected before any transport call with the toggle on. -/
theorem client_validation_gating_witness :
    Json.truthy (.num 5) = true ∧
    stringSchema.parse (.num 5) = .error ⟨["expected string".toList]⟩ ∧
    makeRequest cfgOn routesFix okTransport .POST "/u".toList (.num 5) ⟨none, none⟩ =
      ⟨.error (.validationError ⟨["expected string".toList]⟩), [], []⟩ :=
  ⟨rfl, rfl,
    (client_validation_gating cfgOn routesFix okTransport .POST "/u".toList (.num 5)
      ⟨none, none⟩ [("/u".toList, rcStrBody)] rcStrBody stringSchema
      ⟨["expected string".toList]⟩ "http://h/u".toList
      rfl rfl rfl rfl rfl rfl).1 rfl⟩

/-- Claim C4 (amended): for every client dispatch where the transport
reports a non-success status, the client parses the response body as
an error payload and raises, after the transport call completes, an
error carrying the message parsed from that error body; the error is
never swallowed.  (The raised `new Error(error.message)` does not
carry the status.) -/
theorem http_error_propagation (cfg : ClientConfig) (routes : Routes)
    (transport : FetchCall → Response) (method : Method) (path : List Char) (b : Json)
    (opts : CallOptions) (url : List Char) (err : Json)
    (hval : handleValidation cfg.validate routes method path b opts.queryParams = .ok ())
    (hurl : buildUrl cfg.baseUrl path opts = .ok url)
    (hnotok : responseOk (transport (clientCall cfg method url b)) = false)
    (hbody : (transport (clientCall cfg method url b)).jsonBody = some err)
    (hnn : err.isNullish = false) :
    makeRequest cfg routes transport method path b opts =
      ⟨.error (.httpError (jsField err "message".toList)),
        [clientCall cfg method url b], [.json]⟩ := by
  simp only [makeRequest, hval, hurl]
  rw [handleResponse, if_pos (by simp [hnotok]), hbody]
  simp [hnn]

/-- Claim C4 counterexample to the un-amended statement: two
dispatches identical except for the transport status (404 versus 500)
produce identical outcomes, so the raised error cannot carry the
status; it carries only the message parsed from the error body. -/
theorem http_error_propagation_counterexample :
    makeRequest cfgOff routesFix transport404 .POST "/u".toList (.str "x".toList)
        ⟨none, none⟩ =
      makeRequest cfgOff routesFix transport500 .POST "/u".toList (.str "x".toList)
        ⟨none, none⟩ ∧
    (makeRequest cfgOff routesFix transport404 .POST "/u".toList (.str "x".toList)
        ⟨none, none⟩).result =
      .error (.httpError (some (.str "not found".toList))) :=
  ⟨rfl, rfl⟩

/-- Claim C4 witness: a 404 with body `{"message": "not found"}`
surfaces as a raised error with that message, after one transport
call. -/
theorem http_error_propagation_witness :
    responseOk ⟨404, some (.obj [("message".toList, .str "not found".toList)])⟩ = false ∧
    makeRequest cfgOff routesFix transport404 .POST "/u".toList (.str "x".toList)
        ⟨none, none⟩ =
      ⟨.error (.httpError (some (.str "not found".toList))),
        [⟨"http://h/u".toList, "POST".toList, mergeHeaders cfgOff, some (.str "x".toList)⟩],
        [.json]⟩ :=
  ⟨rfl,
    http_error_propagation cfgOff routesFix transport404 .POST "/u".toList
      (.str "x".toList) ⟨none, none⟩ "http://h/u".toList
      (.obj [("message".toList, .str "not found".toList)]) rfl rfl rfl rfl rfl⟩

/-- Claim C5: for every route whose declared response type is the
sentinel `"void"` and every successful transport response, the dispatch
drains the response body (one `text()` read), returns `undefined`, and
never attempts to parse the response body as JSON — regardless of what
the server sent (even a non-JSON body) and regardless of the validation
toggle. -/
theorem void_response_contract (cfg : ClientConfig) (routes : Routes)
    (transport : FetchCall → Response) (method : Method) (path : List Char) (b : Json)
    (opts : CallOptions) (url : List Char) (tbl : List (List Char × RouteConfig))
    (rc : RouteConfig)
    (hval : handleValidation cfg.validate routes method path b opts.queryParams = .ok ())
    (hurl : buildUrl cfg.baseUrl path opts = .ok url)
    (htbl : routes method = some tbl)
    (hrc : lookupKey tbl path = some rc)
    (hvoid : rc.response.isVoid = true)
    (hok : responseOk (transport (clientCall cfg method url b)) = true) :
    makeRequest cfg routes transport method path b opts =
      ⟨.ok .undef, [clientCall cfg method url b], [.text]⟩ := by
  simp only [makeRequest, hval, hurl]
  rw [handleResponse, if_neg (by simp [hok]), htbl]
  simp [hrc, hvoid]

/-- Claim C5 witness: a void route answered 204 with a non-JSON body
still returns nothing after a single `text()` read, with the toggle
on. -/
theorem void_response_contract_witness :
    rcVoid.response.isVoid = true ∧
    makeRequest cfgOn routesFix transport204 .GET "/v".toList .undef ⟨none, none⟩ =
      ⟨.ok .undef,
        [⟨"http://h/v".toList, "GET".toList, mergeHeaders cfgOn, none⟩],
        [.text]⟩ :=
  ⟨rfl,
    void_response_contract cfgOn routesFix transport204 .GET "/v".toList .undef
      ⟨none, none⟩ "http://h/v".toList [("/v".toList, rcVoid)] rcVoid
      rfl rfl rfl rfl rfl rfl⟩

/-- For an unknown route (the method table absent, or present without
the path key), `handleResponse` always faults: on a success status the
descriptor lookup raises a TypeError, and on a non-success status the
error branch raises regardless of the route table. -/
theorem handleResponse_unknown_route_error (v : Bool) (routes : Routes) (method : Method)
    (path : List Char) (resp : Response)
    (hmiss : routes method = none ∨
      ∃ tbl, routes method = some tbl ∧ lookupKey tbl path = none) :
    ∃ e, (handleResponse v routes method path resp).1 = .error e := by
  rw [handleResponse]
  by_cases hok : responseOk resp
  · rw [if_neg (by simp [hok])]
    rcases hmiss with htbl | ⟨tbl, htbl, hm⟩
    · exact ⟨.jsTypeError, by simp [htbl]⟩
    · exact ⟨.jsTypeError, by simp [htbl, hm]⟩
  · rw [if_pos (by simp [Bool.not_eq_true] at hok ⊢; exact hok)]
    rcases hjb : resp.jsonBody with _ | err
    · exact ⟨.jsonParseError, by simp⟩
    · by_cases hn : err.isNullish = true
      · exact ⟨.jsTypeError, by simp [hn]⟩
      · exact ⟨.httpError (jsField err "message".toList), by simp [hn]⟩

/-- Claim C9 (amended): for every client dispatch whose path-template
key does not exist in the route table under the given method, the call
fails loudly — the dispatch always yields an error, never a silent
success — whichever the validation toggle, the path parameters, and
the transport's answer; but it is not guaranteed that no network call
is issued: a network call may already have been made when the failure
surfaces (see the counterexample, where the missing descriptor faults
only during response handling, after the transport returns). -/
theorem unknown_route_fails (cfg : ClientConfig) (routes : Routes)
    (transport : FetchCall → Response) (method : Method) (path : List Char) (b : Json)
    (opts : CallOptions)
    (hmiss : routes method = none ∨
      ∃ tbl, routes method = some tbl ∧ lookupKey tbl path = none) :
    ∃ e, (makeRequest cfg routes transport method path b opts).result = .error e := by
  have hval : handleValidation cfg.validate routes method path b opts.queryParams = .ok () ∨
      ∃ e, handleValidation cfg.validate routes method path b opts.queryParams =
        .error e := by
    rcases hmiss with htbl | ⟨tbl, htbl, hm⟩
    · cases hv : cfg.validate with
      | false => exact Or.inl (handleValidation_off _ _ _ _ _)
      | true => exact Or.inr ⟨.jsTypeError, by simp [handleValidation, htbl]⟩
    · exact Or.inl (handleValidation_unknown_route cfg.validate path b opts.queryParams htbl hm)
  rcases hval with hval | ⟨e, hval⟩
  · cases hurl : buildUrl cfg.baseUrl path opts with
    | error e =>
      refine ⟨e, ?_⟩
      simp only [makeRequest, hval, hurl]
    | ok url =>
      obtain ⟨e, he⟩ := handleResponse_unknown_route_error cfg.validate routes method path
        (transport (clientCall cfg method url b)) hmiss
      refine ⟨e, ?_⟩
      simp only [makeRequest, hval, hurl]
      exact he
  · refine ⟨e, ?_⟩
    simp only [makeRequest, hval]

/-- Claim C9 counterexample to the un-amended statement: with `GET /x`
absent from a present `GET` table and the toggle on, the transport IS
invoked (one call), and the failure — a TypeError on the missing
descriptor — is raised only afterwards. -/
theorem unknown_route_counterexample :
    lookupKey [("/v".toList, rcVoid)] "/x".toList = none ∧
    makeRequest cfgOn routesFix okTransport .GET "/x".toList .undef ⟨none, none⟩ =
      ⟨.error .jsTypeError,
        [⟨"http://h/x".toList, "GET".toList, mergeHeaders cfgOn, none⟩],
        []⟩ :=
  ⟨rfl, rfl⟩

/-- Claim C9 witness for the amended statement, at the same input as
the counterexample: the dispatch yields an error. -/
theorem unknown_route_fails_witness :
    routesFix .GET = some [("/v".toList, rcVoid)] ∧
    lookupKey [("/v".toList, rcVoid)] "/x".toList = none ∧
    ∃ e, (makeRequest cfgOn routesFix okTransport .GET "/x".toList .undef
      ⟨none, none⟩).result = .error e :=
  ⟨rfl, rfl,
    unknown_route_fails cfgOn routesFix okTransport .GET "/x".toList .undef
      ⟨none, none⟩ (Or.inr ⟨[("/v".toList, rcVoid)], rfl, rfl⟩)⟩

/-! ## Claim theorems: server dispatcher -/

/-- Claim C6: for every registered route and inbound request passing
the QUERY guard, any failure raised in the context-factory invocation,
request validation (body or query), handler invocation, or response
validation is forwarded exactly to `next(err)`: the outcome is
`nextCalled` with that failure, so it is never swallowed, never
escapes as an unhandled fault, and no JSON response body is sent by
the dispatcher for that request. -/
theorem server_error_forwarding (method : Method) (routes : Routes) (sh : ServerHandlers)
    (route : List Char) (validation : Bool) (req : ServerReq)
    (tbl : List (List Char × RouteConfig)) (e : RpcError)
    (hguard : ¬(method = Method.QUERY ∧ req.method ≠ "QUERY".toList))
    (htbl : routes method = some tbl)
    (hfail :
      serverCtx sh req = .error e ∨
      ((∃ ctx, serverCtx sh req = .ok ctx) ∧
        serverBodyField (lookupKey tbl route) req = .error e) ∨
      ((∃ ctx, serverCtx sh req = .ok ctx) ∧
        (∃ b, serverBodyField (lookupKey tbl route) req = .ok b) ∧
        serverQueryField (lookupKey tbl route) req = .error e) ∨
      (∃ ctx b q, serverCtx sh req = .ok ctx ∧
        serverBodyField (lookupKey tbl route) req = .ok b ∧
        serverQueryField (lookupKey tbl route) req = .ok q ∧
        serverResult sh method route ⟨req.params, b, q⟩ ctx = .error e) ∨
      (∃ ctx b q r rcfg ve, serverCtx sh req = .ok ctx ∧
        serverBodyField (lookupKey tbl route) req = .ok b ∧
        serverQueryField (lookupKey tbl route) req = .ok q ∧
        serverResult sh method route ⟨req.params, b, q⟩ ctx = .ok r ∧
        validation = true ∧ lookupKey tbl route = some rcfg ∧
        rcfg.response.parse r = .error ve ∧ e = .validationError ve)) :
    createRouteHandler method routes sh route validation req = .nextCalled e ∧
    ∀ v, createRouteHandler method routes sh route validation req ≠ .jsonSent v := by
  have hmain : createRouteHandler method routes sh route validation req = .nextCalled e := by
    rw [createRouteHandler, if_neg hguard]
    rcases hfail with hc | ⟨⟨ctx, hc⟩, hb⟩ | ⟨⟨ctx, hc⟩, ⟨b, hb⟩, hq⟩ |
      ⟨ctx, b, q, hc, hb, hq, hr⟩ | ⟨ctx, b, q, r, rcfg, ve, hc, hb, hq, hr, hv, hrc, hp, he⟩
    · simp only [hc]
    · simp only [hc, htbl, hb]
    · simp only [hc, htbl, hb, hq]
    · simp only [hc, htbl, hb, hq, hr]
    · rw [hrc] at hb hq
      simp only [hc, htbl, hrc, hb, hq, hr, hv, hp, he, if_true]
  exact ⟨hmain, fun v hv => by rw [hmain] at hv; cases hv⟩

/-- A user handler that always throws. -/
def throwingHandler : HandlerData → Json → Except RpcError Json :=
  fun _ _ => .error (.userError "boom".toList)

/-- Server handlers fixture: a throwing handler on `POST /u`, no
context factory, no validation flag supplied. -/
def shThrowing : ServerHandlers :=
  ⟨fun m => match m with
    | .POST => some [("/u".toList, throwingHandler)]
    | _ => none,
   none, none⟩

/-- An inbound `POST /u` request with a valid string body. -/
def reqPostU : ServerReq := ⟨"POST".toList, [], .str "x".toList, .obj []⟩

/-- Claim C6 witness: a handler-thrown failure on `POST /u` is
forwarded to `next` and no JSON body is sent. -/
theorem server_error_forwarding_witness :
    serverResult shThrowing .POST "/u".toList
      ⟨[], some (.str "x".toList), none⟩ (.obj []) =
      .error (.userError "boom".toList) ∧
    createRouteHandler .POST routesFix shThrowing "/u".toList true reqPostU =
      .nextCalled (.userError "boom".toList) ∧
    ∀ v, createRouteHandler .POST routesFix shThrowing "/u".toList true reqPostU ≠
      .jsonSent v :=
  ⟨rfl,
    (server_error_forwarding .POST routesFix shThrowing "/u".toList true reqPostU
      [("/u".toList, rcStrBody)] (.userError "boom".toList)
      (fun h => Method.noConfusion h.1) rfl
      (Or.inr (Or.inr (Or.inr (Or.inl
        ⟨.obj [], some (.str "x".toList), none, rfl, rfl, rfl, rfl⟩))))).1,
    (server_error_forwarding .POST routesFix shThrowing "/u".toList true reqPostU
      [("/u".toList, rcStrBody)] (.userError "boom".toList)
      (fun h => Method.noConfusion h.1) rfl
      (Or.inr (Or.inr (Or.inr (Or.inl
        ⟨.obj [], some (.str "x".toList), none, rfl, rfl, rfl, rfl⟩))))).2⟩

/-- Claim C7: for every route registered under the custom QUERY method
and every inbound request whose actual HTTP method differs, the
dispatcher answers directly with a 405 Method Not Allowed response and
returns — for every handlers object, so the user handler is never
invoked. -/
theorem query_method_guard (routes : Routes) (sh : ServerHandlers) (route : List Char)
    (validation : Bool) (req : ServerReq)
    (hm : req.method ≠ "QUERY".toList) :
    createRouteHandler Method.QUERY routes sh route validation req =
      .statusSent 405 "Method Not Allowed".toList := by
  rw [createRouteHandler, if_pos ⟨rfl, hm⟩]

/-- Claim C7 witness: a GET request hitting a QUERY-registered route
is answered 405 and the (throwing) handler is not reached. -/
theorem query_method_guard_witness :
    ("GET".toList ≠ "QUERY".toList) ∧
    createRouteHandler Method.QUERY routesFix shThrowing "/u".toList true
      ⟨"GET".toList, [], .undef, .obj []⟩ =
      .statusSent 405 "Method Not Allowed".toList :=
  ⟨by decide,
    query_method_guard routesFix shThrowing "/u".toList true
      ⟨"GET".toList, [], .undef, .obj []⟩ (by decide)⟩

/-- Claim C8: the server route registrar resolves an unsupplied
validation flag to enabled (`validation = true` by destructuring
default), so the wired handler validates the user handler's return
value against the declared response schema before sending; with the
flag explicitly `false`, the return value is sent unvalidated. -/
theorem server_response_validation_default (routes : Routes) (sh : ServerHandlers)
    (method : Method) (route : List Char) (req : ServerReq)
    (tbl : List (List Char × RouteConfig)) (rcfg : RouteConfig)
    (ctx : Json) (b q : Option Json) (r : Json)
    (hguard : ¬(method = Method.QUERY ∧ req.method ≠ "QUERY".toList))
    (hctx : serverCtx sh req = .ok ctx)
    (htbl : routes method = some tbl)
    (hrcfg : lookupKey tbl route = some rcfg)
    (hb : serverBodyField (some rcfg) req = .ok b)
    (hq : serverQueryField (some rcfg) req = .ok q)
    (hr : serverResult sh method route ⟨req.params, b, q⟩ ctx = .ok r) :
    (sh.validation = none →
      registeredHandler routes sh method route req =
        (match rcfg.response.parse r with
         | .ok v => .jsonSent v
         | .error ve => .nextCalled (.validationError ve))) ∧
    (sh.validation = some false →
      registeredHandler routes sh method route req = .jsonSent r) := by
  constructor
  · intro hv
    rw [registeredHandler, hv]
    rw [createRouteHandler, if_neg hguard]
    simp only [hctx, htbl, hrcfg, hb, hq, hr, Option.getD_none, if_true]
  · intro hv
    rw [registeredHandler, hv]
    rw [createRouteHandler, if_neg hguard]
    simp only [hctx, htbl, hrcfg, hb, hq, hr, Option.getD_some, Bool.false_eq_true, if_false]

/-- A user handler returning the fixed string "done". -/
def constHandler : HandlerData → Json → Except RpcError Json :=
  fun _ _ => .ok (.str "done".toList)

/-- Server handlers fixture: a constant handler on `POST /u`, no
context factory, no validation flag supplied. -/
def shConstNoFlag : ServerHandlers :=
  ⟨fun m => match m with
    | .POST => some [("/u".toList, constHandler)]
    | _ => none,
   none, none⟩

/-- Claim C8 witness: with no validation flag supplied, the registered
`POST /u` handler's return value passes through the (identity)
response schema and is sent as JSON — the default resolves to
validation on. -/
theorem server_response_validation_default_witness :
    shConstNoFlag.validation = none ∧
    registeredHandler routesFix shConstNoFlag .POST "/u".toList reqPostU =
      .jsonSent (.str "done".toList) :=
  ⟨rfl,
    (server_response_validation_default routesFix shConstNoFlag .POST "/u".toList reqPostU
      [("/u".toList, rcStrBody)] rcStrBody (.obj []) (some (.str "x".toList)) none
      (.str "done".toList)
      (fun h => Method.noConfusion h.1) rfl rfl rfl rfl rfl rfl).1 rfl⟩

end JokioRpc
